import Mathlib

/-!
Verification development for the ImageStyler repository (src/unnamed/part_000 and
src/script.js). The claims are settled against the feature-complete variant
src/unnamed/part_000, which the claims reference: its data model is a pair of
canvases (originalCanvas, the pristine source; exportCanvas, the mutable output
surface) and two conversions, convertToASCII and convertToPaint, the latter
delegating its drawing to applyPaintEffects.

Modelling conventions:
- JavaScript numbers are embedded as rationals; Math.round is floor(x + 1/2),
  Math.floor on naturals is Nat division, and the JavaScript idiom (v || d)
  on numbers is modelled as: d when v = 0, otherwise v.
- Math.random() is an ambient stream of rationals, threaded explicitly as a
  function from a counter index to a rational plus the current index.
- Canvas drawing is embedded as a trace of draw operations (DrawOp); a
  rasterizer folds the trace into per-pixel RGBA bytes. Rectangle fills are
  exact; circle fills cover the pixels whose centers lie in the disk (no
  antialiasing); glyph fills carry the glyph but paint no pixels, since glyph
  rasterization is font dependent and no claim depends on glyph pixels.
  Compositing is computed in exact rational arithmetic on straight-alpha
  colors and quantized to bytes once per conversion.
- ctx.drawImage downscaling into a small canvas is embedded as a box average:
  destination cell (x, y) averages the source pixels i with i * sw / W = x
  (and likewise for rows), with Nat division for the average; this is exact
  for constant regions, which is all any claim evaluates.
-/

set_option linter.unusedVariables false

/-- One RGBA pixel as stored in ImageData: four byte channels. -/
structure RGBA where
  r : Nat
  g : Nat
  b : Nat
  a : Nat
  deriving DecidableEq, Repr

/-- A color as used while compositing: byte-scale channels and an alpha in
[0, 1], both exact rationals. -/
structure QColor where
  r : ℚ
  g : ℚ
  b : ℚ
  a : ℚ
  deriving DecidableEq, Repr

/-- A canvas: width, height and the pixel bytes at each coordinate. -/
structure Canvas where
  width : Nat
  height : Nat
  data : Nat → Nat → RGBA

/-- Composite operation in effect for a draw call
(ctx.globalCompositeOperation). -/
inductive CompositeOp where
  | sourceOver
  | lighter
  | overlay
  deriving DecidableEq, Repr

/-- One canvas draw call recorded by a conversion. -/
inductive DrawOp where
  | fillRect (x y w h : ℚ) (color : QColor) (comp : CompositeOp)
  | fillCircle (cx cy rad : ℚ) (color : QColor) (comp : CompositeOp)
  | fillText (ch : Char) (x y : ℚ) (fontSize : Nat)
  | drawTexture (noise : Nat → Nat → Nat) (alphaByte : Nat) (globalAlpha : ℚ)

/-- Math.round: round half toward positive infinity. -/
def jsRound (q : ℚ) : ℤ := ⌊q + 1 / 2⌋

/-- The JavaScript idiom (v || d) on numbers: the default d replaces a zero
(falsy) value. -/
def jsOr (v d : ℚ) : ℚ := if v = 0 then d else v

/-- Convert stored bytes to a compositing color (alpha byte scaled to [0,1],
as the code does with smallData[i+3] / 255). -/
def toQColor (c : RGBA) : QColor := ⟨(c.r : ℚ), (c.g : ℚ), (c.b : ℚ), (c.a : ℚ) / 255⟩

/-- The solid white background fill color (fillStyle = |#ffffff|). -/
def whiteQ : QColor := ⟨255, 255, 255, 1⟩

/-- Source pixels of a destination cell when downscaling a length-W axis to
length sw: the indices i < W with i * sw / W = x. -/
def cellSrc (W sw x : Nat) : List Nat :=
  (List.range W).filter (fun i => i * sw / W = x)

/-- Box-average downscale of a canvas to sw x sh, one RGBA byte sample per
destination cell; embeds the drawImage-then-getImageData idiom of the code. -/
def downsample (c : Canvas) (sw sh : Nat) (x y : Nat) : RGBA :=
  let xs := cellSrc c.width sw x
  let ys := cellSrc c.height sh y
  let pix := ys.flatMap (fun j => xs.map (fun i => c.data i j))
  let n := pix.length
  if n = 0 then ⟨0, 0, 0, 0⟩ else
    ⟨(pix.map RGBA.r).sum / n, (pix.map RGBA.g).sum / n,
     (pix.map RGBA.b).sum / n, (pix.map RGBA.a).sum / n⟩

/-! ## ASCII conversion (convertToASCII, part_000 lines 892-944) -/

/-- ASCII character set, ordered from darkest to lightest (line 101). -/
def ASCII_CHARS : String := "@%#*+=-:. "

/-- Luminance of a sampled cell (line 933):
(0.299 r + 0.587 g + 0.114 b) / 255. Alpha is ignored. -/
def brightness (c : RGBA) : ℚ :=
  (299 / 1000 * (c.r : ℚ) + 587 / 1000 * (c.g : ℚ) + 114 / 1000 * (c.b : ℚ)) / 255

/-- Ramp index as a function of luminance (line 934):
floor((1 - brightness) * (ASCII_CHARS.length - 1)). -/
def charIndexQ (L : ℚ) : ℤ := ⌊(1 - L) * ((ASCII_CHARS.length : ℚ) - 1)⌋

/-- Ramp index of a sampled cell. -/
def charIndex (c : RGBA) : ℤ := charIndexQ (brightness c)

/-- The glyph chosen for a sampled cell (line 935): ASCII_CHARS[charIndex]. -/
def asciiCharOf (c : RGBA) : Char := ASCII_CHARS.data.getD (charIndex c).toNat ' '

/-- Effective column count (line 893): cols = Number(cols) || 120. -/
def effCols (cols : Nat) : Nat := if cols = 0 then 120 else cols

/-- Row count derivation (lines 903-904):
rows = max(4, round((cols * origHeight / origWidth) * 0.5)). -/
def rowsForAscii (w h cols : Nat) : Nat :=
  (max 4 (jsRound (((cols : ℚ) * (h : ℚ) / (w : ℚ)) * (1 / 2)))).toNat

/-- The glyphs of one output row, left to right (inner loop, lines 928-938). -/
def asciiRowChars (small : Nat → Nat → RGBA) (cols y : Nat) : List Char :=
  (List.range cols).map (fun x => asciiCharOf (small x y))

/-- The characters of the plain-text output: per row the glyphs then a line
break (lines 926-940, asciiOut). -/
def asciiChars (small : Nat → Nat → RGBA) (cols rows : Nat) : List Char :=
  ((List.range rows).map (fun y => asciiRowChars small cols y ++ ['\n'])).flatten

/-- Glyph draw calls of the ASCII conversion, row major
(line 936, fillText(ch, x * charW, y * charH)). -/
def asciiGlyphOps (small : Nat → Nat → RGBA) (cols rows : Nat)
    (charW charH : ℤ) (fontSize : Nat) : List DrawOp :=
  ((List.range rows).map (fun y => (List.range cols).map (fun x =>
    DrawOp.fillText (asciiCharOf (small x y))
      ((x : ℚ) * (charW : ℚ)) ((y : ℚ) * (charH : ℚ)) fontSize))).flatten

/-- The glyphs carried by the draw calls of a trace, in call order. -/
def traceGlyphs (ops : List DrawOp) : List Char :=
  ops.filterMap (fun op => match op with
    | DrawOp.fillText ch _ _ _ => some ch
    | _ => none)

/-! ## Paint conversion (convertToPaint lines 707-727, applyPaintEffects
lines 742-872) -/

/-- Paint options object built by convert() (lines 621-630). -/
structure PaintOpts where
  pixel : Bool
  brush : Bool
  gallery : Bool
  impression : Bool
  watercolor : Bool
  pixelSize : ℚ
  brushStrength : ℚ
  textureStrength : ℚ

/-- Cell size of the paint grid (line 711):
pixelSize = max(2, round(opts.pixelSize || 8)). -/
def pixelSizeOf (opts : PaintOpts) : Nat :=
  (max 2 (jsRound (jsOr opts.pixelSize 8))).toNat

/-- Column count of the paint grid (line 712):
smallW = max(floor(width / pixelSize), 1). -/
def gridCols (w ps : Nat) : Nat := max (w / ps) 1

/-- Row count of the paint grid (line 713):
smallH = max(floor(height / pixelSize), 1). -/
def gridRows (h ps : Nat) : Nat := max (h / ps) 1

/-- Left edge of the cell rectangle in column x (line 765). -/
def cellRectX (ps x : Nat) : Nat := x * ps

/-- Top edge of the cell rectangle in row y (line 766). -/
def cellRectY (ps y : Nat) : Nat := y * ps

/-- Width of the cell rectangle in column x (lines 763, 768-771): the last
column is stretched to the surface edge, canvasWidth - rectX. -/
def cellRectW (W ps sw x : Nat) : Nat :=
  if x = sw - 1 then W - cellRectX ps x else ps

/-- Height of the cell rectangle in row y (lines 764, 773-776): the last row
is stretched to the surface edge, canvasHeight - rectY. -/
def cellRectH (H ps sh y : Nat) : Nat :=
  if y = sh - 1 then H - cellRectY ps y else ps

/-- Membership of an output pixel in the cell rectangle of cell (x, y). -/
def inCellRect (W H ps sw sh x y px py : Nat) : Prop :=
  cellRectX ps x ≤ px ∧ px < cellRectX ps x + cellRectW W ps sw x ∧
  cellRectY ps y ≤ py ∧ py < cellRectY ps y + cellRectH H ps sh y

instance (W H ps sw sh x y px py : Nat) :
    Decidable (inCellRect W H ps sw sh x y px py) := by
  unfold inCellRect; infer_instance

/-- Pixel-layer draw calls (lines 752-781): one flat rectangle per cell, row
major, with the sampled cell color. -/
def pixelOps (W H ps sw sh : Nat) (small : Nat → Nat → RGBA) : List DrawOp :=
  ((List.range sh).map (fun y => (List.range sw).map (fun x =>
    DrawOp.fillRect (cellRectX ps x) (cellRectY ps y)
      (cellRectW W ps sw x) (cellRectH H ps sh y)
      (toQColor (small x y)) CompositeOp.sourceOver))).flatten

/-- Brush opacity (line 784): brushAlpha = opts.brushStrength || 0.7. -/
def brushAlphaOf (strength : ℚ) : ℚ := jsOr strength (7 / 10)

/-- Daub count per cell (line 811): strokes = max(1, round(pixelSize / 2)). -/
def strokesOf (ps : Nat) : Nat := max 1 (jsRound ((ps : ℚ) / 2)).toNat

/-- Color of a brush daub (line 818): the cell color with alpha scaled by the
brush opacity. -/
def daubColor (c : RGBA) (brushAlpha : ℚ) : QColor :=
  ⟨(c.r : ℚ), (c.g : ℚ), (c.b : ℚ), ((c.a : ℚ) / 255) * brushAlpha⟩

/-- Brush-layer daubs for one cell (lines 810-822): strokes filled circles,
jittered by up to 0.3 pixelSize in each axis, radius in
[0.45, 0.85] * pixelSize, composited source-over. Stroke s consumes the
random values at idx + 3 s, idx + 3 s + 1, idx + 3 s + 2. -/
def brushOps (f : Nat → ℚ) (idx : Nat) (ps : Nat) (cx cy : ℚ) (c : RGBA)
    (brushAlpha : ℚ) : List DrawOp :=
  (List.range (strokesOf ps)).map (fun s =>
    DrawOp.fillCircle
      (cx + (f (idx + 3 * s) - 1 / 2) * (ps : ℚ) * (3 / 5))
      (cy + (f (idx + 3 * s + 1) - 1 / 2) * (ps : ℚ) * (3 / 5))
      ((ps : ℚ) * (9 / 20 + f (idx + 3 * s + 2) * (2 / 5)))
      (daubColor c brushAlpha) CompositeOp.sourceOver)

/-- Random values consumed by the brush layer in one cell. -/
def brushRandCount (ps : Nat) : Nat := 3 * strokesOf ps

/-- Impressionist-layer dab for one cell (lines 824-837): with probability
0.25 one larger circle, channels r and g nudged brighter, alpha scaled by
0.9. Returns the draw calls and the number of random values consumed. -/
def impressionOps (f : Nat → ℚ) (idx : Nat) (ps : Nat) (cx cy : ℚ)
    (c : RGBA) : List DrawOp × Nat :=
  if f idx < 1 / 4 then
    ([DrawOp.fillCircle
        (cx + (f (idx + 1) - 1 / 2) * (ps : ℚ))
        (cy + (f (idx + 2) - 1 / 2) * (ps : ℚ))
        ((ps : ℚ) * (4 / 5))
        ⟨(min 255 (c.r + 20) : Nat), (min 255 (c.g + 10) : Nat), (c.b : ℚ),
          ((c.a : ℚ) / 255) * (9 / 10)⟩
        CompositeOp.sourceOver], 3)
  else ([], 1)

/-- Watercolor-layer wash for one cell (lines 839-846): one large translucent
circle with additive (lighter) compositing, radius pixelSize, alpha
0.12 * (cellAlpha + 0.2). -/
def watercolorOps (ps : Nat) (cx cy : ℚ) (c : RGBA) : List DrawOp :=
  [DrawOp.fillCircle cx cy (ps : ℚ)
    ⟨(c.r : ℚ), (c.g : ℚ), (c.b : ℚ), (3 / 25) * ((c.a : ℚ) / 255 + 1 / 5)⟩
    CompositeOp.lighter]

/-- Artistic draw calls for one cell of the brush/impression/watercolor block
(lines 786-848), with the cell center computed from the edge-stretched
rectangle (lines 794-808). Returns the calls and the next random index. -/
def cellArtOps (f : Nat → ℚ) (idx : Nat) (W H ps sw sh x y : Nat)
    (c : RGBA) (opts : PaintOpts) : List DrawOp × Nat :=
  let cx : ℚ := (cellRectX ps x : ℚ) + (cellRectW W ps sw x : ℚ) / 2
  let cy : ℚ := (cellRectY ps y : ℚ) + (cellRectH H ps sh y : ℚ) / 2
  let bOps := if opts.brush then brushOps f idx ps cx cy c (brushAlphaOf opts.brushStrength) else []
  let i1 := idx + (if opts.brush then brushRandCount ps else 0)
  let ir := if opts.impression then impressionOps f i1 ps cx cy c else ([], 0)
  let i2 := i1 + ir.2
  let wOps := if opts.watercolor then watercolorOps ps cx cy c else []
  (bOps ++ ir.1 ++ wOps, i2)

/-- The whole artistic block (lines 783-850): cells in row-major order, the
random index threaded left to right. -/
def artOps (f : Nat → ℚ) (idx : Nat) (W H ps sw sh : Nat)
    (small : Nat → Nat → RGBA) (opts : PaintOpts) : List DrawOp × Nat :=
  ((List.range sh).flatMap (fun y => (List.range sw).map (fun x => (x, y)))).foldl
    (fun acc cell =>
      let r := cellArtOps f acc.2 W H ps sw sh cell.1 cell.2 (small cell.1 cell.2) opts
      (acc.1 ++ r.1, r.2))
    ([], idx)

/-- Texture overlay (lines 852-871): a full-surface noise image, every pixel
a random near-white gray 230 + floor(rand * 25) with alpha byte
10 + textureStrength * 40, drawn with overlay compositing at global alpha
min(0.95, 0.3 + textureStrength * 0.7). Consumes one random value per
surface pixel, row major. -/
def textureOps (f : Nat → ℚ) (idx : Nat) (W H : Nat) (ts : ℚ) :
    List DrawOp × Nat :=
  ([DrawOp.drawTexture
      (fun px py => 230 + (⌊f (idx + (py * W + px)) * 25⌋).toNat)
      (⌊10 + (jsOr ts 0) * 40⌋).toNat
      (min (19 / 20) (3 / 10 + (jsOr ts 0) * (7 / 10)))], idx + W * H)

/-- Full trace of applyPaintEffects (lines 742-872): white background fill,
then the optional pixel layer, artistic block and texture overlay, in that
order. Returns the draw calls and the next random index. -/
def applyPaintEffects (f : Nat → ℚ) (idx : Nat) (W H ps sw sh : Nat)
    (small : Nat → Nat → RGBA) (opts : PaintOpts) : List DrawOp × Nat :=
  let bg : List DrawOp := [DrawOp.fillRect 0 0 (W : ℚ) (H : ℚ) whiteQ CompositeOp.sourceOver]
  let pix := if opts.pixel then pixelOps W H ps sw sh small else []
  let ar := if opts.brush || opts.impression || opts.watercolor || opts.gallery
    then artOps f idx W H ps sw sh small opts else ([], idx)
  let tex := if opts.gallery || opts.textureStrength ≠ 0
    then textureOps f ar.2 W H opts.textureStrength else ([], ar.2)
  (bg ++ pix ++ ar.1 ++ tex.1, tex.2)

/-! ## Compositing and rasterization

The trace is folded into per-pixel colors with exact rational compositing on
straight-alpha colors, quantized to bytes once per conversion. Circle fills
cover the pixels whose centers lie in the disk; glyph fills paint no pixels
(their rasterization is font dependent and no claim reads glyph pixels). -/

/-- Source-over compositing of straight-alpha colors. -/
def compSourceOver (s d : QColor) : QColor :=
  let outA := s.a + d.a * (1 - s.a)
  if outA = 0 then ⟨0, 0, 0, 0⟩ else
    ⟨(s.r * s.a + d.r * d.a * (1 - s.a)) / outA,
     (s.g * s.a + d.g * d.a * (1 - s.a)) / outA,
     (s.b * s.a + d.b * d.a * (1 - s.a)) / outA, outA⟩

/-- Additive (lighter) compositing: premultiplied sums, clamped. -/
def compLighter (s d : QColor) : QColor :=
  let outA := min 1 (s.a + d.a)
  if outA = 0 then ⟨0, 0, 0, 0⟩ else
    ⟨min 255 ((s.r * s.a + d.r * d.a) / outA),
     min 255 ((s.g * s.a + d.g * d.a) / outA),
     min 255 ((s.b * s.a + d.b * d.a) / outA), outA⟩

/-- Overlay blend of one channel (byte scale). -/
def overlayChannel (d s : ℚ) : ℚ :=
  if d ≤ 255 / 2 then 2 * d * s / 255 else 255 - 2 * (255 - d) * (255 - s) / 255

/-- Overlay compositing of a source onto a destination: the blended channels
are mixed in by the effective source alpha. -/
def compOverlay (s d : QColor) : QColor :=
  ⟨d.r + s.a * (overlayChannel d.r s.r - d.r),
   d.g + s.a * (overlayChannel d.g s.g - d.g),
   d.b + s.a * (overlayChannel d.b s.b - d.b),
   d.a + s.a * (1 - d.a)⟩

/-- Composite one source color onto a destination under an operation. -/
def compose (comp : CompositeOp) (s d : QColor) : QColor :=
  match comp with
  | CompositeOp.sourceOver => compSourceOver s d
  | CompositeOp.lighter => compLighter s d
  | CompositeOp.overlay => compOverlay s d

/-- Apply one draw call to the color currently at pixel (px, py). -/
def applyOp (op : DrawOp) (px py : Nat) (d : QColor) : QColor :=
  match op with
  | DrawOp.fillRect x y w h color comp =>
      if x ≤ (px : ℚ) ∧ (px : ℚ) < x + w ∧ y ≤ (py : ℚ) ∧ (py : ℚ) < y + h
      then compose comp color d else d
  | DrawOp.fillCircle cx cy rad color comp =>
      if ((px : ℚ) + 1 / 2 - cx) ^ 2 + ((py : ℚ) + 1 / 2 - cy) ^ 2 ≤ rad ^ 2
      then compose comp color d else d
  | DrawOp.fillText _ _ _ _ => d
  | DrawOp.drawTexture noise alphaByte ga =>
      compose CompositeOp.overlay
        ⟨(noise px py : ℚ), (noise px py : ℚ), (noise px py : ℚ),
          ((alphaByte : ℚ) / 255) * ga⟩ d

/-- Rasterize a trace starting from a fully transparent surface (the canvas
state after clearRect). -/
def rasterize (ops : List DrawOp) (px py : Nat) : QColor :=
  ops.foldl (fun d op => applyOp op px py d) ⟨0, 0, 0, 0⟩

/-- Round a rational channel into a byte. -/
def qByte (q : ℚ) : Nat := min 255 (jsRound q).toNat

/-- Quantize a composited color into stored RGBA bytes. -/
def quantize (c : QColor) : RGBA :=
  ⟨qByte c.r, qByte c.g, qByte c.b, qByte (c.a * 255)⟩

/-! ## Application state and the two conversions -/

/-- The mutable state the conversions touch: the pristine source canvas, the
export canvas (output surface), the textarea string, the ambient random
stream with its consumption index, and the trace of the last conversion. -/
structure AppState where
  originalCanvas : Canvas
  exportCanvas : Canvas
  asciiText : String
  randStream : Nat → ℚ
  randIdx : Nat
  lastTrace : List DrawOp

/-- Source canvas selection shared by both conversions (lines 709 and 896):
srcCanvas = originalCanvas.width > 0 ? originalCanvas : exportCanvas. -/
def srcCanvasOf (s : AppState) : Canvas :=
  if s.originalCanvas.width > 0 then s.originalCanvas else s.exportCanvas

/-- The full trace drawn by convertToASCII: white background over the source
dimensions (lines 918-920), then one glyph per cell (lines 927-940). -/
def asciiTrace (src : Canvas) (cols rows : Nat) (fontSize : Nat) : List DrawOp :=
  DrawOp.fillRect 0 0 (src.width : ℚ) (src.height : ℚ) whiteQ CompositeOp.sourceOver ::
    asciiGlyphOps (downsample src cols rows) cols rows
      (jsRound ((src.width : ℚ) / (cols : ℚ))) (jsRound ((src.height : ℚ) / (rows : ℚ)))
      fontSize

/-- The plain-text output of convertToASCII for a source canvas. -/
def asciiStringOf (src : Canvas) (cols rows : Nat) : String :=
  String.mk (asciiChars (downsample src cols rows) cols rows)

/-- convertToASCII (lines 892-944): reads the pristine source, derives the
column and row counts, draws the glyph grid onto the export canvas and fills
the textarea. The export canvas keeps its dimensions; pixels inside the
cleared region are the rasterized trace. -/
def convertToASCII (fontSize cols0 : Nat) (s : AppState) : AppState :=
  let cols := effCols cols0
  let src := srcCanvasOf s
  let rows := rowsForAscii src.width src.height cols
  let trace := asciiTrace src cols rows fontSize
  { s with
    exportCanvas :=
      { s.exportCanvas with
        data := fun px py =>
          if px < src.width ∧ py < src.height
          then quantize (rasterize trace px py)
          else s.exportCanvas.data px py }
    asciiText := asciiStringOf src cols rows
    lastTrace := trace }

/-- convertToPaint (lines 707-727): reads the pristine source, downsamples it
to the paint grid and applies the paint effects to the export canvas, which
keeps its dimensions. -/
def convertToPaint (opts : PaintOpts) (s : AppState) : AppState :=
  let src := srcCanvasOf s
  let ps := pixelSizeOf opts
  let sw := gridCols src.width ps
  let sh := gridRows src.height ps
  let W := s.exportCanvas.width
  let H := s.exportCanvas.height
  let tr := applyPaintEffects s.randStream s.randIdx W H ps sw sh
    (downsample src sw sh) opts
  { s with
    exportCanvas :=
      { s.exportCanvas with
        data := fun px py => quantize (rasterize tr.1 px py) }
    randIdx := tr.2
    lastTrace := tr.1 }

/-- One user-triggered conversion call (the two branches of convert(),
lines 617-632). -/
inductive ConvCall where
  | ascii (fontSize cols : Nat)
  | paint (opts : PaintOpts)

/-- Dispatch one conversion call. -/
def applyConv (s : AppState) (c : ConvCall) : AppState :=
  match c with
  | ConvCall.ascii fontSize cols => convertToASCII fontSize cols s
  | ConvCall.paint opts => convertToPaint opts s

/-- Run a sequence of conversion calls. -/
def runConvs (s : AppState) (l : List ConvCall) : AppState :=
  l.foldl applyConv s

/-! ## Concrete fixtures for witnesses and counterexamples -/

/-- A 10 x 10 canvas of solid opaque red, the bitmap of the pixel-mode
scenario in the spec. -/
def redCanvas : Canvas := ⟨10, 10, fun _ _ => ⟨255, 0, 0, 255⟩⟩

/-- A zero-size canvas: the state of originalCanvas before any image load. -/
def emptyCanvas : Canvas := ⟨0, 0, fun _ _ => ⟨0, 0, 0, 0⟩⟩

/-- A concrete random stream. -/
def zeroRand : Nat → ℚ := fun _ => 0

/-- State after loading the red bitmap: pristine source and export canvas
both hold the image, as loadStaticImage leaves them (lines 443-456). -/
def stRed : AppState := ⟨redCanvas, redCanvas, "", zeroRand, 0, []⟩

/-- State with no pristine source captured (originalCanvas has zero width). -/
def stEmpty : AppState := ⟨emptyCanvas, redCanvas, "", zeroRand, 0, []⟩

/-- Paint options of the pixel-mode scenario: only the pixel layer, cell
size 5. -/
def opts5 : PaintOpts := ⟨true, false, false, false, false, 5, 7 / 10, 0⟩

/-- Paint options requesting cell size 0 (the counterexample input of the
grid-sizing claim). -/
def optsZeroCell : PaintOpts := ⟨true, false, false, false, false, 0, 7 / 10, 0⟩

/-- The sampled cell color used in the brush-layer examples. -/
def daubCell : RGBA := ⟨10, 20, 30, 255⟩

/-- Another concrete random stream, distinct from zeroRand. -/
def oneRand : Nat → ℚ := fun n => 1 / ((n : ℚ) + 3)

/-- The red-bitmap state with a different random stream, random index,
textarea content and last trace (only the source bitmap agrees with
stRed). -/
def stRedAlt : AppState :=
  ⟨redCanvas, redCanvas, "x", oneRand, 5,
    [DrawOp.fillRect 0 0 1 1 whiteQ CompositeOp.sourceOver]⟩

/-! ## Helper lemmas -/

theorem ASCII_CHARS_length : ASCII_CHARS.length = 10 := rfl

theorem brightness_nonneg (c : RGBA) : 0 ≤ brightness c := by
  unfold brightness; positivity

theorem brightness_le_one (c : RGBA) (hr : c.r ≤ 255) (hg : c.g ≤ 255)
    (hb : c.b ≤ 255) : brightness c ≤ 1 := by
  unfold brightness
  rw [div_le_one (by norm_num)]
  have hr2 : (c.r : ℚ) ≤ 255 := by exact_mod_cast hr
  have hg2 : (c.g : ℚ) ≤ 255 := by exact_mod_cast hg
  have hb2 : (c.b : ℚ) ≤ 255 := by exact_mod_cast hb
  nlinarith

theorem charIndexQ_antitone {L1 L2 : ℚ} (h : L1 ≤ L2) :
    charIndexQ L2 ≤ charIndexQ L1 := by
  unfold charIndexQ
  apply Int.floor_le_floor
  have : (ASCII_CHARS.length : ℚ) - 1 = 9 := by
    rw [ASCII_CHARS_length]; norm_num
  rw [this]
  nlinarith

theorem charIndex_le_nine (c : RGBA) : charIndex c ≤ 9 := by
  unfold charIndex charIndexQ
  have h9 : (ASCII_CHARS.length : ℚ) - 1 = 9 := by
    rw [ASCII_CHARS_length]; norm_num
  rw [h9]
  have h1 : (1 - brightness c) * 9 ≤ 9 := by
    have := brightness_nonneg c; nlinarith
  calc ⌊(1 - brightness c) * 9⌋ ≤ ⌊(9 : ℚ)⌋ := Int.floor_le_floor h1
    _ = 9 := by norm_num

theorem charIndex_nonneg (c : RGBA) (hr : c.r ≤ 255) (hg : c.g ≤ 255)
    (hb : c.b ≤ 255) : 0 ≤ charIndex c := by
  unfold charIndex charIndexQ
  apply Int.floor_nonneg.mpr
  have h9 : (ASCII_CHARS.length : ℚ) - 1 = 9 := by
    rw [ASCII_CHARS_length]; norm_num
  rw [h9]
  have := brightness_le_one c hr hg hb
  nlinarith

theorem asciiCharOf_ne_newline (c : RGBA) : asciiCharOf c ≠ '\n' := by
  unfold asciiCharOf
  have h9 : (charIndex c).toNat ≤ 9 := by
    have := charIndex_le_nine c; omega
  have : ∀ k, k ≤ 9 → ASCII_CHARS.data.getD k ' ' ≠ '\n' := by decide
  exact this _ h9

/-- Claim C3 as stated is false: the black cell is darker than the white cell
yet receives ramp index 9 (the lightest character) while white receives 0. -/
theorem ramp_direction_counterexample :
    brightness ⟨0, 0, 0, 255⟩ < brightness ⟨255, 255, 255, 255⟩ ∧
    charIndex ⟨0, 0, 0, 255⟩ = 9 ∧ charIndex ⟨255, 255, 255, 255⟩ = 0 ∧
    asciiCharOf ⟨0, 0, 0, 255⟩ = ' ' ∧ asciiCharOf ⟨255, 255, 255, 255⟩ = '@' := by
  refine ⟨?_, ?_, ?_, ?_, ?_⟩
  · norm_num [brightness]
  · norm_num [charIndex, charIndexQ, brightness, ASCII_CHARS_length]
  · norm_num [charIndex, charIndexQ, brightness, ASCII_CHARS_length]
  · norm_num [asciiCharOf, charIndex, charIndexQ, brightness, ASCII_CHARS_length]
    decide
  · norm_num [asciiCharOf, charIndex, charIndexQ, brightness, ASCII_CHARS_length]
    decide

/-- Amended C3: the mapping runs the other way: a darker cell (lower
luminance) is assigned a ramp index at least as large, that is a later
(lighter) character of the darkest-to-lightest ramp. -/
theorem ramp_direction_amended (c1 c2 : RGBA)
    (h : brightness c1 < brightness c2) : charIndex c2 ≤ charIndex c1 :=
  charIndexQ_antitone h.le

theorem ramp_direction_amended_witness :
    charIndex ⟨255, 255, 255, 255⟩ ≤ charIndex ⟨0, 0, 0, 255⟩ :=
  ramp_direction_amended ⟨0, 0, 0, 255⟩ ⟨255, 255, 255, 255⟩ (by norm_num [brightness])

/-- Claim C4: the ramp index is floor((1 - L) * (rampLength - 1)) of the
luminance L = (0.299 r + 0.587 g + 0.114 b) / 255, and the index is antitone:
for luminances L1 < L2 the index chosen for L1 is at least the index chosen
for L2. -/
theorem ramp_monotonicity :
    (∀ c : RGBA, charIndex c =
      ⌊(1 - (299 / 1000 * (c.r : ℚ) + 587 / 1000 * (c.g : ℚ) +
        114 / 1000 * (c.b : ℚ)) / 255) * ((ASCII_CHARS.length : ℚ) - 1)⌋) ∧
    ∀ L1 L2 : ℚ, L1 < L2 → charIndexQ L2 ≤ charIndexQ L1 := by
  constructor
  · intro c; rfl
  · intro L1 L2 h; exact charIndexQ_antitone h.le

theorem ramp_monotonicity_witness : charIndexQ 1 ≤ charIndexQ 0 :=
  ramp_monotonicity.2 0 1 (by norm_num)

/-- Claim C9: for byte cell samples the computed ramp index lies in
[0, 9], so indexing the ten-character ramp never goes out of bounds. -/
theorem ramp_index_in_range (c : RGBA) (hr : c.r ≤ 255) (hg : c.g ≤ 255)
    (hb : c.b ≤ 255) :
    0 ≤ charIndex c ∧ charIndex c ≤ 9 ∧
    (charIndex c).toNat < ASCII_CHARS.length := by
  have h1 := charIndex_nonneg c hr hg hb
  have h2 := charIndex_le_nine c
  refine ⟨h1, h2, ?_⟩
  rw [ASCII_CHARS_length]; omega

theorem ramp_index_in_range_witness :
    0 ≤ charIndex ⟨0, 0, 0, 255⟩ ∧ charIndex ⟨0, 0, 0, 255⟩ ≤ 9 ∧
    (charIndex ⟨0, 0, 0, 255⟩).toNat < ASCII_CHARS.length :=
  ramp_index_in_range ⟨0, 0, 0, 255⟩ (by decide) (by decide) (by decide)

theorem count_newline_asciiChars (small : Nat → Nat → RGBA) (cols rows : Nat) :
    (asciiChars small cols rows).count '\n' = rows := by
  unfold asciiChars
  rw [List.count_flatten]
  have hrow : ∀ y, ((asciiRowChars small cols y ++ ['\n']).count '\n') = 1 := by
    intro y
    rw [List.count_append]
    have h0 : (asciiRowChars small cols y).count '\n' = 0 := by
      rw [List.count_eq_zero]
      intro hmem
      unfold asciiRowChars at hmem
      rcases List.mem_map.mp hmem with ⟨x, _, hx⟩
      exact asciiCharOf_ne_newline _ hx
    simp [h0]
  rw [List.map_map]
  have : (List.range rows).map ((List.count '\n') ∘ fun y => asciiRowChars small cols y ++ ['\n'])
      = (List.range rows).map (fun _ => 1) := by
    apply List.map_congr_left
    intro y _
    exact hrow y
  rw [this]
  simp [List.map_const]

/-- Claim C2: the row count is derived, not settable: the number of output
lines is max(4, round(cols * height / width * 0.5)), and 120 columns on a
1600 x 1000 bitmap yield 38 rows. -/
theorem derived_row_count (s : AppState) (fontSize cols : Nat) (hc : 0 < cols)
    (hw : 0 < s.originalCanvas.width) (hh : 0 < s.originalCanvas.height) :
    (convertToASCII fontSize cols s).asciiText.data.count '\n'
        = rowsForAscii s.originalCanvas.width s.originalCanvas.height cols ∧
    rowsForAscii s.originalCanvas.width s.originalCanvas.height cols
        = (max 4 (jsRound (((cols : ℚ) * (s.originalCanvas.height : ℚ) /
            (s.originalCanvas.width : ℚ)) * (1 / 2)))).toNat ∧
    rowsForAscii 1600 1000 120 = 38 := by
  refine ⟨?_, rfl, ?_⟩
  · have hsrc : srcCanvasOf s = s.originalCanvas := if_pos hw
    have hcols : effCols cols = cols := if_neg (Nat.pos_iff_ne_zero.mp hc)
    simp only [convertToASCII, asciiStringOf, hsrc, hcols]
    exact count_newline_asciiChars _ _ _
  · unfold rowsForAscii jsRound
    norm_num
    decide

theorem derived_row_count_witness :
    (convertToASCII 10 4 stRed).asciiText.data.count '\n'
        = rowsForAscii stRed.originalCanvas.width stRed.originalCanvas.height 4 ∧
    rowsForAscii stRed.originalCanvas.width stRed.originalCanvas.height 4
        = (max 4 (jsRound (((4 : ℚ) * (stRed.originalCanvas.height : ℚ) /
            (stRed.originalCanvas.width : ℚ)) * (1 / 2)))).toNat ∧
    rowsForAscii 1600 1000 120 = 38 :=
  derived_row_count stRed 10 4 (by decide) (by decide) (by decide)

/-- Claim C7 as stated is false at a requested cell size of 0: the code
falls back to the default 8 (opts.pixelSize || 8), while the claimed formula
max(2, round(0)) yields 2. -/
theorem paint_grid_counterexample :
    pixelSizeOf optsZeroCell = 8 ∧
    (max 2 (jsRound optsZeroCell.pixelSize)).toNat = 2 ∧ (8 : Nat) ≠ 2 := by
  refine ⟨?_, ?_, by decide⟩
  · unfold pixelSizeOf optsZeroCell jsOr jsRound
    norm_num
    decide
  · unfold optsZeroCell jsRound
    norm_num
    decide

/-- Amended C7: for every nonzero requested cell size the grid follows
cellSize = max(2, round(options.cellSize)), cols = max(floor(w / cellSize), 1),
rows = max(floor(h / cellSize), 1); negative requests are clamped to 2 and
the cell size is always at least 2 (a zero request falls back to the
default 8 instead). -/
theorem paint_grid_sizing (opts : PaintOpts) (hne : opts.pixelSize ≠ 0) :
    pixelSizeOf opts = (max 2 (jsRound opts.pixelSize)).toNat ∧
    (∀ w, gridCols w (pixelSizeOf opts) = max (w / pixelSizeOf opts) 1) ∧
    (∀ h, gridRows h (pixelSizeOf opts) = max (h / pixelSizeOf opts) 1) ∧
    2 ≤ pixelSizeOf opts ∧
    (opts.pixelSize < 0 → pixelSizeOf opts = 2) := by
  refine ⟨?_, fun w => rfl, fun h => rfl, ?_, ?_⟩
  · unfold pixelSizeOf jsOr
    rw [if_neg hne]
  · unfold pixelSizeOf
    have h2 : (2 : ℤ) ≤ max 2 (jsRound (jsOr opts.pixelSize 8)) := le_max_left _ _
    omega
  · intro hneg
    unfold pixelSizeOf jsOr
    rw [if_neg hne]
    have hz : jsRound opts.pixelSize < 1 := by
      unfold jsRound
      rw [Int.floor_lt]
      push_cast
      linarith
    have : max 2 (jsRound opts.pixelSize) = 2 := max_eq_left (by omega)
    rw [this]
    decide

theorem paint_grid_sizing_witness :
    pixelSizeOf opts5 = (max 2 (jsRound opts5.pixelSize)).toNat ∧
    (∀ w, gridCols w (pixelSizeOf opts5) = max (w / pixelSizeOf opts5) 1) ∧
    (∀ h, gridRows h (pixelSizeOf opts5) = max (h / pixelSizeOf opts5) 1) ∧
    2 ≤ pixelSizeOf opts5 ∧
    (opts5.pixelSize < 0 → pixelSizeOf opts5 = 2) :=
  paint_grid_sizing opts5 (by norm_num [opts5])

theorem strokesOf_four : strokesOf 4 = 2 := by
  unfold strokesOf jsRound
  norm_num
  decide

theorem brushAlphaOf_zero : brushAlphaOf 0 = 7 / 10 := by
  unfold brushAlphaOf jsOr
  norm_num

/-- Claim C6 as stated is false at brushStrength 0: the code substitutes the
default opacity 0.7 (opts.brushStrength || 0.7), so each daub carries alpha
cellAlpha * 0.7 instead of the claimed cellAlpha * 0. -/
theorem brush_daub_alpha_counterexample :
    (∀ op ∈ brushOps zeroRand 0 4 0 0 daubCell (brushAlphaOf 0),
      ∃ px py rad, op = DrawOp.fillCircle px py rad
        ⟨(daubCell.r : ℚ), (daubCell.g : ℚ), (daubCell.b : ℚ),
          ((daubCell.a : ℚ) / 255) * (7 / 10)⟩ CompositeOp.sourceOver) ∧
    ((daubCell.a : ℚ) / 255) * (7 / 10) ≠ ((daubCell.a : ℚ) / 255) * 0 ∧
    (brushOps zeroRand 0 4 0 0 daubCell (brushAlphaOf 0)).length = 2 := by
  refine ⟨?_, ?_, ?_⟩
  · intro op hop
    unfold brushOps at hop
    rcases List.mem_map.mp hop with ⟨s, _, rfl⟩
    exact ⟨_, _, _, by rw [daubColor, brushAlphaOf_zero]⟩
  · unfold daubCell
    norm_num
  · unfold brushOps
    rw [List.length_map, List.length_range, strokesOf_four]

/-- Amended C6: for every brushStrength in (0, 1] each brush daub is a filled
circle in the cell color with alpha = cellAlpha * brushStrength, composited
source-over; a brushStrength of exactly 0 is replaced by the default 0.7. -/
theorem brush_daub_alpha (f : Nat → ℚ) (idx ps : Nat) (cx cy : ℚ) (c : RGBA)
    (strength : ℚ) (h0 : 0 < strength) (h1 : strength ≤ 1) :
    ∀ op ∈ brushOps f idx ps cx cy c (brushAlphaOf strength),
      ∃ px py rad, op = DrawOp.fillCircle px py rad
        ⟨(c.r : ℚ), (c.g : ℚ), (c.b : ℚ), ((c.a : ℚ) / 255) * strength⟩
        CompositeOp.sourceOver := by
  intro op hop
  unfold brushOps at hop
  rcases List.mem_map.mp hop with ⟨s, _, rfl⟩
  have hb : brushAlphaOf strength = strength := if_neg (ne_of_gt h0)
  exact ⟨_, _, _, by rw [daubColor, hb]⟩

theorem brush_daub_alpha_witness :
    ∃ op ∈ brushOps zeroRand 0 4 0 0 daubCell (brushAlphaOf (1 / 2)),
      ∃ px py rad, op = DrawOp.fillCircle px py rad
        ⟨(daubCell.r : ℚ), (daubCell.g : ℚ), (daubCell.b : ℚ),
          ((daubCell.a : ℚ) / 255) * (1 / 2)⟩ CompositeOp.sourceOver := by
  have hlist : brushOps zeroRand 0 4 0 0 daubCell (brushAlphaOf (1 / 2)) =
      (List.range 2).map (fun s =>
        DrawOp.fillCircle
          (0 + (zeroRand (0 + 3 * s) - 1 / 2) * ((4 : Nat) : ℚ) * (3 / 5))
          (0 + (zeroRand (0 + 3 * s + 1) - 1 / 2) * ((4 : Nat) : ℚ) * (3 / 5))
          (((4 : Nat) : ℚ) * (9 / 20 + zeroRand (0 + 3 * s + 2) * (2 / 5)))
          (daubColor daubCell (brushAlphaOf (1 / 2))) CompositeOp.sourceOver) := by
    unfold brushOps
    rw [strokesOf_four]
  have hmem : DrawOp.fillCircle
      (0 + (zeroRand (0 + 3 * 0) - 1 / 2) * ((4 : Nat) : ℚ) * (3 / 5))
      (0 + (zeroRand (0 + 3 * 0 + 1) - 1 / 2) * ((4 : Nat) : ℚ) * (3 / 5))
      (((4 : Nat) : ℚ) * (9 / 20 + zeroRand (0 + 3 * 0 + 2) * (2 / 5)))
      (daubColor daubCell (brushAlphaOf (1 / 2))) CompositeOp.sourceOver
      ∈ brushOps zeroRand 0 4 0 0 daubCell (brushAlphaOf (1 / 2)) := by
    rw [hlist]
    exact List.mem_map.mpr ⟨0, List.mem_range.mpr (by decide), rfl⟩
  exact ⟨_, hmem, brush_daub_alpha zeroRand 0 4 0 0 daubCell (1 / 2)
    (by norm_num) (by norm_num) _ hmem⟩

theorem applyConv_originalCanvas (s : AppState) (c : ConvCall) :
    (applyConv s c).originalCanvas = s.originalCanvas := by
  cases c <;> rfl

theorem runConvs_originalCanvas (l : List ConvCall) (s : AppState) :
    (runConvs s l).originalCanvas = s.originalCanvas := by
  induction l generalizing s with
  | nil => rfl
  | cons c rest ih =>
      show (runConvs (applyConv s c) rest).originalCanvas = _
      rw [ih (applyConv s c), applyConv_originalCanvas]

/-- Claim C1: across any sequence of conversions the pristine source canvas
is untouched (its pixel data byte for byte included), and at every point of
the sequence the next conversion reads the original source bitmap, never the
prior output surface. -/
theorem pristine_source_invariant (s : AppState) (l : List ConvCall)
    (hw : 0 < s.originalCanvas.width) :
    (runConvs s l).originalCanvas = s.originalCanvas ∧
    (runConvs s l).originalCanvas.data = s.originalCanvas.data ∧
    ∀ l1 l2, l = l1 ++ l2 → srcCanvasOf (runConvs s l1) = s.originalCanvas := by
  refine ⟨runConvs_originalCanvas l s, by rw [runConvs_originalCanvas], ?_⟩
  intro l1 l2 hsplit
  unfold srcCanvasOf
  rw [runConvs_originalCanvas]
  exact if_pos hw

theorem pristine_source_invariant_witness :
    (runConvs stRed [ConvCall.ascii 10 120, ConvCall.paint opts5]).originalCanvas
        = stRed.originalCanvas ∧
    (runConvs stRed [ConvCall.ascii 10 120, ConvCall.paint opts5]).originalCanvas.data
        = stRed.originalCanvas.data ∧
    ∀ l1 l2, [ConvCall.ascii 10 120, ConvCall.paint opts5] = l1 ++ l2 →
      srcCanvasOf (runConvs stRed l1) = stRed.originalCanvas :=
  pristine_source_invariant stRed [ConvCall.ascii 10 120, ConvCall.paint opts5]
    (by decide)

/-- Claim C10: when no pristine source has been captured (originalCanvas has
zero width) both conversions fall back to reading the export canvas;
whenever a pristine source exists they read it; and each conversion is a
function of the canvas selected by srcCanvasOf. -/
theorem source_fallback (s : AppState) (fontSize cols : Nat) (opts : PaintOpts) :
    (s.originalCanvas.width = 0 → srcCanvasOf s = s.exportCanvas) ∧
    (0 < s.originalCanvas.width → srcCanvasOf s = s.originalCanvas) ∧
    (convertToASCII fontSize cols s).asciiText =
      asciiStringOf (srcCanvasOf s) (effCols cols)
        (rowsForAscii (srcCanvasOf s).width (srcCanvasOf s).height (effCols cols)) ∧
    (convertToASCII fontSize cols s).lastTrace =
      asciiTrace (srcCanvasOf s) (effCols cols)
        (rowsForAscii (srcCanvasOf s).width (srcCanvasOf s).height (effCols cols))
        fontSize ∧
    (convertToPaint opts s).lastTrace =
      (applyPaintEffects s.randStream s.randIdx
        s.exportCanvas.width s.exportCanvas.height (pixelSizeOf opts)
        (gridCols (srcCanvasOf s).width (pixelSizeOf opts))
        (gridRows (srcCanvasOf s).height (pixelSizeOf opts))
        (downsample (srcCanvasOf s) (gridCols (srcCanvasOf s).width (pixelSizeOf opts))
          (gridRows (srcCanvasOf s).height (pixelSizeOf opts))) opts).1 := by
  refine ⟨?_, ?_, rfl, rfl, rfl⟩
  · intro h
    unfold srcCanvasOf
    rw [if_neg]
    omega
  · intro h
    exact if_pos h

theorem source_fallback_witness :
    srcCanvasOf stEmpty = stEmpty.exportCanvas ∧
    srcCanvasOf stRed = stRed.originalCanvas :=
  ⟨(source_fallback stEmpty 10 120 opts5).1 rfl,
   (source_fallback stRed 10 120 opts5).2.1 (by decide)⟩

theorem traceGlyphs_asciiTrace (src : Canvas) (cols rows fontSize : Nat) :
    traceGlyphs (asciiTrace src cols rows fontSize) =
      ((List.range rows).map
        (fun y => asciiRowChars (downsample src cols rows) cols y)).flatten := by
  unfold traceGlyphs asciiTrace asciiGlyphOps
  rw [List.filterMap_cons]
  simp only []
  rw [List.filterMap_flatten, List.map_map]
  congr 1
  apply List.map_congr_left
  intro y _
  rw [Function.comp_apply, List.filterMap_map]
  unfold asciiRowChars
  show List.filterMap (some ∘ fun x => asciiCharOf (downsample src cols rows x y))
      (List.range cols)
    = List.map (fun x => asciiCharOf (downsample src cols rows x y)) (List.range cols)
  rw [List.filterMap_eq_map]

/-- Claim C8: text mode is deterministic: for a fixed source bitmap, column
count and font size, two conversion calls produce the same glyph string and
the same draw trace whatever the ambient random streams; and the plain-text
output lists exactly the drawn glyph per cell in row-major order with a line
break after each row. -/
theorem text_mode_determinism (s1 s2 : AppState) (fontSize cols : Nat)
    (hsrc : s1.originalCanvas = s2.originalCanvas)
    (hw : 0 < s1.originalCanvas.width) :
    (convertToASCII fontSize cols s1).asciiText
        = (convertToASCII fontSize cols s2).asciiText ∧
    (convertToASCII fontSize cols s1).lastTrace
        = (convertToASCII fontSize cols s2).lastTrace ∧
    (convertToASCII fontSize cols s1).asciiText.data
        = ((List.range (rowsForAscii s1.originalCanvas.width
              s1.originalCanvas.height (effCols cols))).map
            (fun y => asciiRowChars
              (downsample s1.originalCanvas (effCols cols)
                (rowsForAscii s1.originalCanvas.width s1.originalCanvas.height
                  (effCols cols)))
              (effCols cols) y ++ ['\n'])).flatten ∧
    traceGlyphs (convertToASCII fontSize cols s1).lastTrace
        = ((List.range (rowsForAscii s1.originalCanvas.width
              s1.originalCanvas.height (effCols cols))).map
            (fun y => asciiRowChars
              (downsample s1.originalCanvas (effCols cols)
                (rowsForAscii s1.originalCanvas.width s1.originalCanvas.height
                  (effCols cols)))
              (effCols cols) y)).flatten := by
  have h1 : srcCanvasOf s1 = s1.originalCanvas := if_pos hw
  have h2 : srcCanvasOf s2 = s1.originalCanvas := by
    unfold srcCanvasOf
    rw [← hsrc] at *
    exact if_pos hw
  refine ⟨?_, ?_, ?_, ?_⟩
  · show asciiStringOf (srcCanvasOf s1) _ _ = asciiStringOf (srcCanvasOf s2) _ _
    rw [h1, h2]
  · show asciiTrace (srcCanvasOf s1) _ _ _ = asciiTrace (srcCanvasOf s2) _ _ _
    rw [h1, h2]
  · show (asciiStringOf (srcCanvasOf s1) _ _).data = _
    rw [h1]
    rfl
  · show traceGlyphs (asciiTrace (srcCanvasOf s1) _ _ _) = _
    rw [h1]
    exact traceGlyphs_asciiTrace _ _ _ _

theorem text_mode_determinism_witness :
    (convertToASCII 10 120 stRed).asciiText
        = (convertToASCII 10 120 stRedAlt).asciiText ∧
    (convertToASCII 10 120 stRed).lastTrace
        = (convertToASCII 10 120 stRedAlt).lastTrace ∧
    (convertToASCII 10 120 stRed).asciiText.data
        = ((List.range (rowsForAscii stRed.originalCanvas.width
              stRed.originalCanvas.height (effCols 120))).map
            (fun y => asciiRowChars
              (downsample stRed.originalCanvas (effCols 120)
                (rowsForAscii stRed.originalCanvas.width stRed.originalCanvas.height
                  (effCols 120)))
              (effCols 120) y ++ ['\n'])).flatten ∧
    traceGlyphs (convertToASCII 10 120 stRed).lastTrace
        = ((List.range (rowsForAscii stRed.originalCanvas.width
              stRed.originalCanvas.height (effCols 120))).map
            (fun y => asciiRowChars
              (downsample stRed.originalCanvas (effCols 120)
                (rowsForAscii stRed.originalCanvas.width stRed.originalCanvas.height
                  (effCols 120)))
              (effCols 120) y)).flatten :=
  text_mode_determinism stRed stRedAlt 10 120 rfl (by decide)

theorem lastRect_le (L ps : Nat) : (max (L / ps) 1 - 1) * ps ≤ L := by
  by_cases h : L / ps = 0
  · rw [h]
    simp
  · have h1 : max (L / ps) 1 = L / ps := max_eq_left (Nat.one_le_iff_ne_zero.mpr h)
    rw [h1]
    calc (L / ps - 1) * ps ≤ L / ps * ps := Nat.mul_le_mul_right ps (Nat.sub_le _ 1)
      _ ≤ L := Nat.div_mul_le_self L ps

theorem axis_cover (L ps p : Nat) (hps : 0 < ps) (hp : p < L) :
    ∃ x < max (L / ps) 1, x * ps ≤ p ∧
      p < x * ps + (if x = max (L / ps) 1 - 1 then L - x * ps else ps) := by
  by_cases hx : p / ps < max (L / ps) 1 - 1
  · refine ⟨p / ps, by omega, Nat.div_mul_le_self p ps, ?_⟩
    rw [if_neg (by omega)]
    exact Nat.lt_div_mul_add hps
  · refine ⟨max (L / ps) 1 - 1, ?_, ?_, ?_⟩
    · have : 1 ≤ max (L / ps) 1 := le_max_right _ _
      omega
    · exact (Nat.le_div_iff_mul_le hps).mp (by omega)
    · rw [if_pos rfl, Nat.add_sub_cancel' (lastRect_le L ps)]
      exact hp

theorem pixelSizeOf_opts5 : pixelSizeOf opts5 = 5 := by
  show (max 2 (jsRound (jsOr opts5.pixelSize 8))).toNat = 5
  rw [show opts5.pixelSize = 5 from rfl, jsOr, if_neg (by norm_num)]
  unfold jsRound
  norm_num
  decide

theorem downsample_red : ∀ x < 2, ∀ y < 2,
    downsample redCanvas 2 2 x y = ⟨255, 0, 0, 255⟩ := by decide

theorem paint_trace_opts5 :
    (applyPaintEffects zeroRand 0 10 10 5 2 2 (downsample redCanvas 2 2) opts5).1
      = DrawOp.fillRect 0 0 (10 : ℚ) (10 : ℚ) whiteQ CompositeOp.sourceOver ::
        pixelOps 10 10 5 2 2 (downsample redCanvas 2 2) := by
  unfold applyPaintEffects
  norm_num [opts5]

theorem applyOp_rect_pos {x y w h : ℚ} {c : QColor} {cmp : CompositeOp}
    {px py : Nat} (d : QColor)
    (hc : x ≤ (px : ℚ) ∧ (px : ℚ) < x + w ∧ y ≤ (py : ℚ) ∧ (py : ℚ) < y + h) :
    applyOp (DrawOp.fillRect x y w h c cmp) px py d = compose cmp c d :=
  if_pos hc

theorem applyOp_rect_neg {x y w h : ℚ} {c : QColor} {cmp : CompositeOp}
    {px py : Nat} (d : QColor)
    (hc : ¬(x ≤ (px : ℚ) ∧ (px : ℚ) < x + w ∧ y ≤ (py : ℚ) ∧ (py : ℚ) < y + h)) :
    applyOp (DrawOp.fillRect x y w h c cmp) px py d = d :=
  if_neg hc

theorem compSourceOver_opaque (s d : QColor) (hs : s.a = 1) :
    compose CompositeOp.sourceOver s d = ⟨s.r, s.g, s.b, 1⟩ := by
  unfold compose compSourceOver
  rw [hs]
  norm_num

theorem quantize_red : quantize ⟨255, 0, 0, 1⟩ = ⟨255, 0, 0, 255⟩ := by
  unfold quantize qByte jsRound
  norm_num

theorem rasterize_five (o1 o2 o3 o4 o5 : DrawOp) (px py : Nat) :
    rasterize [o1, o2, o3, o4, o5] px py =
      applyOp o5 px py (applyOp o4 px py (applyOp o3 px py
        (applyOp o2 px py (applyOp o1 px py ⟨0, 0, 0, 0⟩)))) := rfl

theorem scenario_red (px py : Nat) (hpx : px < 10) (hpy : py < 10) :
    (convertToPaint opts5 stRed).exportCanvas.data px py = ⟨255, 0, 0, 255⟩ := by
  have hstep : (convertToPaint opts5 stRed).exportCanvas.data px py
      = quantize (rasterize (applyPaintEffects zeroRand 0 10 10 (pixelSizeOf opts5)
          (gridCols 10 (pixelSizeOf opts5)) (gridRows 10 (pixelSizeOf opts5))
          (downsample redCanvas (gridCols 10 (pixelSizeOf opts5))
            (gridRows 10 (pixelSizeOf opts5))) opts5).1 px py) := rfl
  rw [hstep, pixelSizeOf_opts5, show gridCols 10 5 = 2 from rfl,
    show gridRows 10 5 = 2 from rfl, paint_trace_opts5]
  have hc : ∀ x, x < 2 → ∀ y, y < 2 →
      toQColor (downsample redCanvas 2 2 x y) = ⟨255, 0, 0, 1⟩ := by
    intro x hx y hy
    rw [downsample_red x hx y hy]
    unfold toQColor
    norm_num
  unfold pixelOps
  simp only [List.range_succ, List.range_zero, List.nil_append, List.map_append,
    List.map_cons, List.map_nil, List.flatten_cons, List.flatten_nil,
    List.append_nil, List.cons_append, List.singleton_append]
  rw [hc 0 (by decide) 0 (by decide), hc 1 (by decide) 0 (by decide),
    hc 0 (by decide) 1 (by decide), hc 1 (by decide) 1 (by decide)]
  have hx0 : ((cellRectX 5 0 : Nat) : ℚ) = 0 := by norm_num [cellRectX]
  have hx1 : ((cellRectX 5 1 : Nat) : ℚ) = 5 := by norm_num [cellRectX]
  have hy0 : ((cellRectY 5 0 : Nat) : ℚ) = 0 := by norm_num [cellRectY]
  have hy1 : ((cellRectY 5 1 : Nat) : ℚ) = 5 := by norm_num [cellRectY]
  have hw0 : ((cellRectW 10 5 2 0 : Nat) : ℚ) = 5 := by norm_num [cellRectW, cellRectX]
  have hw1 : ((cellRectW 10 5 2 1 : Nat) : ℚ) = 5 := by norm_num [cellRectW, cellRectX]
  have hh0 : ((cellRectH 10 5 2 0 : Nat) : ℚ) = 5 := by norm_num [cellRectH, cellRectY]
  have hh1 : ((cellRectH 10 5 2 1 : Nat) : ℚ) = 5 := by norm_num [cellRectH, cellRectY]
  rw [hx0, hx1, hy0, hy1, hw0, hw1, hh0, hh1, rasterize_five]
  have hpxq : (px : ℚ) < 10 := by exact_mod_cast hpx
  have hpyq : (py : ℚ) < 10 := by exact_mod_cast hpy
  have hpx0 : (0 : ℚ) ≤ (px : ℚ) := by positivity
  have hpy0 : (0 : ℚ) ≤ (py : ℚ) := by positivity
  have e1 : applyOp (DrawOp.fillRect 0 0 10 10 whiteQ CompositeOp.sourceOver)
      px py ⟨0, 0, 0, 0⟩ = ⟨255, 255, 255, 1⟩ := by
    rw [applyOp_rect_pos _ ⟨hpx0, by linarith, hpy0, by linarith⟩]
    exact compSourceOver_opaque whiteQ _ rfl
  rw [e1]
  rcases Nat.lt_or_ge px 5 with h1 | h1 <;> rcases Nat.lt_or_ge py 5 with h2 | h2
  · have q1 : (px : ℚ) < 5 := by exact_mod_cast h1
    have q2 : (py : ℚ) < 5 := by exact_mod_cast h2
    have e2 : applyOp (DrawOp.fillRect 0 0 5 5 ⟨255, 0, 0, 1⟩ CompositeOp.sourceOver)
        px py ⟨255, 255, 255, 1⟩ = ⟨255, 0, 0, 1⟩ := by
      rw [applyOp_rect_pos _ ⟨hpx0, by linarith, hpy0, by linarith⟩]
      exact compSourceOver_opaque _ _ rfl
    have e3 : applyOp (DrawOp.fillRect 5 0 5 5 ⟨255, 0, 0, 1⟩ CompositeOp.sourceOver)
        px py ⟨255, 0, 0, 1⟩ = ⟨255, 0, 0, 1⟩ :=
      applyOp_rect_neg _ (by intro hcon; rcases hcon with ⟨ha, _⟩; linarith)
    have e4 : applyOp (DrawOp.fillRect 0 5 5 5 ⟨255, 0, 0, 1⟩ CompositeOp.sourceOver)
        px py ⟨255, 0, 0, 1⟩ = ⟨255, 0, 0, 1⟩ :=
      applyOp_rect_neg _ (by intro hcon; rcases hcon with ⟨_, _, hb, _⟩; linarith)
    have e5 : applyOp (DrawOp.fillRect 5 5 5 5 ⟨255, 0, 0, 1⟩ CompositeOp.sourceOver)
        px py ⟨255, 0, 0, 1⟩ = ⟨255, 0, 0, 1⟩ :=
      applyOp_rect_neg _ (by intro hcon; rcases hcon with ⟨ha, _⟩; linarith)
    rw [e2, e3, e4, e5]
    exact quantize_red
  · have q1 : (px : ℚ) < 5 := by exact_mod_cast h1
    have q2 : (5 : ℚ) ≤ (py : ℚ) := by exact_mod_cast h2
    have e2 : applyOp (DrawOp.fillRect 0 0 5 5 ⟨255, 0, 0, 1⟩ CompositeOp.sourceOver)
        px py ⟨255, 255, 255, 1⟩ = ⟨255, 255, 255, 1⟩ :=
      applyOp_rect_neg _ (by intro hcon; rcases hcon with ⟨_, _, _, hb⟩; linarith)
    have e3 : applyOp (DrawOp.fillRect 5 0 5 5 ⟨255, 0, 0, 1⟩ CompositeOp.sourceOver)
        px py ⟨255, 255, 255, 1⟩ = ⟨255, 255, 255, 1⟩ :=
      applyOp_rect_neg _ (by intro hcon; rcases hcon with ⟨ha, _⟩; linarith)
    have e4 : applyOp (DrawOp.fillRect 0 5 5 5 ⟨255, 0, 0, 1⟩ CompositeOp.sourceOver)
        px py ⟨255, 255, 255, 1⟩ = ⟨255, 0, 0, 1⟩ := by
      rw [applyOp_rect_pos _ ⟨hpx0, by linarith, q2, by linarith⟩]
      exact compSourceOver_opaque _ _ rfl
    have e5 : applyOp (DrawOp.fillRect 5 5 5 5 ⟨255, 0, 0, 1⟩ CompositeOp.sourceOver)
        px py ⟨255, 0, 0, 1⟩ = ⟨255, 0, 0, 1⟩ :=
      applyOp_rect_neg _ (by intro hcon; rcases hcon with ⟨ha, _⟩; linarith)
    rw [e2, e3, e4, e5]
    exact quantize_red
  · have q1 : (5 : ℚ) ≤ (px : ℚ) := by exact_mod_cast h1
    have q2 : (py : ℚ) < 5 := by exact_mod_cast h2
    have e2 : applyOp (DrawOp.fillRect 0 0 5 5 ⟨255, 0, 0, 1⟩ CompositeOp.sourceOver)
        px py ⟨255, 255, 255, 1⟩ = ⟨255, 255, 255, 1⟩ :=
      applyOp_rect_neg _ (by intro hcon; rcases hcon with ⟨_, ha, _⟩; linarith)
    have e3 : applyOp (DrawOp.fillRect 5 0 5 5 ⟨255, 0, 0, 1⟩ CompositeOp.sourceOver)
        px py ⟨255, 255, 255, 1⟩ = ⟨255, 0, 0, 1⟩ := by
      rw [applyOp_rect_pos _ ⟨q1, by linarith, hpy0, by linarith⟩]
      exact compSourceOver_opaque _ _ rfl
    have e4 : applyOp (DrawOp.fillRect 0 5 5 5 ⟨255, 0, 0, 1⟩ CompositeOp.sourceOver)
        px py ⟨255, 0, 0, 1⟩ = ⟨255, 0, 0, 1⟩ :=
      applyOp_rect_neg _ (by intro hcon; rcases hcon with ⟨_, _, hb, _⟩; linarith)
    have e5 : applyOp (DrawOp.fillRect 5 5 5 5 ⟨255, 0, 0, 1⟩ CompositeOp.sourceOver)
        px py ⟨255, 0, 0, 1⟩ = ⟨255, 0, 0, 1⟩ :=
      applyOp_rect_neg _ (by intro hcon; rcases hcon with ⟨_, _, hb, _⟩; linarith)
    rw [e2, e3, e4, e5]
    exact quantize_red
  · have q1 : (5 : ℚ) ≤ (px : ℚ) := by exact_mod_cast h1
    have q2 : (5 : ℚ) ≤ (py : ℚ) := by exact_mod_cast h2
    have e2 : applyOp (DrawOp.fillRect 0 0 5 5 ⟨255, 0, 0, 1⟩ CompositeOp.sourceOver)
        px py ⟨255, 255, 255, 1⟩ = ⟨255, 255, 255, 1⟩ :=
      applyOp_rect_neg _ (by intro hcon; rcases hcon with ⟨_, ha, _⟩; linarith)
    have e3 : applyOp (DrawOp.fillRect 5 0 5 5 ⟨255, 0, 0, 1⟩ CompositeOp.sourceOver)
        px py ⟨255, 255, 255, 1⟩ = ⟨255, 255, 255, 1⟩ :=
      applyOp_rect_neg _ (by intro hcon; rcases hcon with ⟨_, _, _, hb⟩; linarith)
    have e4 : applyOp (DrawOp.fillRect 0 5 5 5 ⟨255, 0, 0, 1⟩ CompositeOp.sourceOver)
        px py ⟨255, 255, 255, 1⟩ = ⟨255, 255, 255, 1⟩ :=
      applyOp_rect_neg _ (by intro hcon; rcases hcon with ⟨_, ha, _⟩; linarith)
    have e5 : applyOp (DrawOp.fillRect 5 5 5 5 ⟨255, 0, 0, 1⟩ CompositeOp.sourceOver)
        px py ⟨255, 255, 255, 1⟩ = ⟨255, 0, 0, 1⟩ := by
      rw [applyOp_rect_pos _ ⟨q1, by linarith, q2, by linarith⟩]
      exact compSourceOver_opaque _ _ rfl
    rw [e2, e3, e4, e5]
    exact quantize_red

/-- Claim C5: with the pixel layer enabled, the per-cell rectangles tile the
output surface: the last column and last row rectangles are stretched to the
surface edge and every output pixel lies in some cell rectangle; and the
10 x 10 solid red bitmap at cell size 5 with only the pixel layer enabled
yields a 10 x 10 output surface that is solid red everywhere. -/
theorem pixel_layer_edge_coverage (W H ps : Nat) (hW : 0 < W) (hH : 0 < H)
    (hps : 0 < ps) :
    cellRectW W ps (gridCols W ps) (gridCols W ps - 1)
        = W - cellRectX ps (gridCols W ps - 1) ∧
    cellRectH H ps (gridRows H ps) (gridRows H ps - 1)
        = H - cellRectY ps (gridRows H ps - 1) ∧
    (∀ px, px < W → ∀ py, py < H → ∃ x, x < gridCols W ps ∧
      ∃ y, y < gridRows H ps ∧
        inCellRect W H ps (gridCols W ps) (gridRows H ps) x y px py) ∧
    (convertToPaint opts5 stRed).exportCanvas.width = 10 ∧
    (convertToPaint opts5 stRed).exportCanvas.height = 10 ∧
    ∀ px, px < 10 → ∀ py, py < 10 →
      (convertToPaint opts5 stRed).exportCanvas.data px py = ⟨255, 0, 0, 255⟩ := by
  refine ⟨?_, ?_, ?_, rfl, rfl, fun px hpx py hpy => scenario_red px py hpx hpy⟩
  · unfold cellRectW
    rw [if_pos rfl]
  · unfold cellRectH
    rw [if_pos rfl]
  · intro px hpx py hpy
    rcases axis_cover W ps px hps hpx with ⟨x, hx, hx1, hx2⟩
    rcases axis_cover H ps py hps hpy with ⟨y, hy, hy1, hy2⟩
    exact ⟨x, hx, y, hy, hx1, hx2, hy1, hy2⟩

theorem pixel_layer_edge_coverage_witness :
    cellRectW 7 5 (gridCols 7 5) (gridCols 7 5 - 1)
        = 7 - cellRectX 5 (gridCols 7 5 - 1) ∧
    cellRectH 3 5 (gridRows 3 5) (gridRows 3 5 - 1)
        = 3 - cellRectY 5 (gridRows 3 5 - 1) ∧
    (∀ px, px < 7 → ∀ py, py < 3 → ∃ x, x < gridCols 7 5 ∧
      ∃ y, y < gridRows 3 5 ∧
        inCellRect 7 3 5 (gridCols 7 5) (gridRows 3 5) x y px py) ∧
    (convertToPaint opts5 stRed).exportCanvas.width = 10 ∧
    (convertToPaint opts5 stRed).exportCanvas.height = 10 ∧
    ∀ px, px < 10 → ∀ py, py < 10 →
      (convertToPaint opts5 stRed).exportCanvas.data px py = ⟨255, 0, 0, 255⟩ :=
  pixel_layer_edge_coverage 7 3 5 (by decide) (by decide) (by decide)
